import Mathlib

/-!
Verification of the DomoActors actor runtime against its specification.

The development shallowly embeds the runtime's data model and operations.
Where the runtime implementation file is present in the tree (the
OverflowPolicy enum, the Scheduler with its ScheduledTask), definitions are
translated directly from that source.  The remaining core files
(BoundedMailbox.ts, Actor.ts, LifeCycle.ts, Stage.ts, Supervisor.ts) are not
in the tree; for those, definitions are modelled from the specification's
words, as indicated in each doc comment.
-/

namespace DomoActors

/-- Overflow policies of a bounded mailbox, translated from the source enum
`OverflowPolicy` (DropOldest, DropNewest, Reject). -/
inductive OverflowPolicy : Type
  | DropOldest
  | DropNewest
  | Reject
deriving DecidableEq, Repr

/-- Modelled from the spec: BoundedMailbox.ts is missing from the tree.  State
of a bounded mailbox per §3 and §4.2 — capacity, overflow policy, FIFO queue,
suspended and closed flags, droppedCount — extended with the externally
observable effects of sends: the dead letters recorded and the rejection
messages delivered to callers' deferreds (§4.2 Reject, §7). -/
structure BoundedMailbox (μ : Type) : Type where
  capacity : Nat
  policy : OverflowPolicy
  queue : List μ
  suspended : Bool
  closed : Bool
  dropped : Nat
  deadLetters : List (μ × String)
  rejections : List String
deriving Repr

namespace BoundedMailbox

/-- Modelled from the spec: a freshly constructed bounded mailbox with the
given (already validated) capacity and policy — empty queue, not suspended,
not closed, zero dropped count. -/
def fresh (μ : Type) (capacity : Nat) (policy : OverflowPolicy) : BoundedMailbox μ :=
  { capacity := capacity
    policy := policy
    queue := []
    suspended := false
    closed := false
    dropped := 0
    deadLetters := []
    rejections := [] }

/-- Modelled from the spec: the BoundedMailbox constructor.  §3 requires the
capacity to be a positive integer; the repository's BoundedMailbox tests pin
the failure message "Mailbox capacity must be positive" for non-positive
capacities. -/
def make (μ : Type) (capacity : Int) (policy : OverflowPolicy) :
    Except String (BoundedMailbox μ) :=
  if capacity ≤ 0 then .error "Mailbox capacity must be positive"
  else .ok (fresh μ capacity.toNat policy)

/-- Accessor `getCapacity()`. -/
def getCapacity (mb : BoundedMailbox μ) : Nat := mb.capacity

/-- Accessor `size()`: number of queued messages. -/
def size (mb : BoundedMailbox μ) : Nat := mb.queue.length

/-- Accessor `isFull()`: the queue has reached capacity. -/
def isFull (mb : BoundedMailbox μ) : Bool := mb.capacity ≤ mb.queue.length

/-- Accessor `droppedMessageCount()`. -/
def droppedMessageCount (mb : BoundedMailbox μ) : Nat := mb.dropped

/-- Accessor `isSuspended()`. -/
def isSuspended (mb : BoundedMailbox μ) : Bool := mb.suspended

/-- Modelled from the spec: `suspend()` sets suspended = true; idempotent
(§4.2). -/
def suspend (mb : BoundedMailbox μ) : BoundedMailbox μ :=
  { mb with suspended := true }

/-- Modelled from the spec: `resume()` sets suspended = false if not closed;
idempotent (§4.2). -/
def resume (mb : BoundedMailbox μ) : BoundedMailbox μ :=
  if mb.closed then mb else { mb with suspended := false }

/-- Modelled from the spec: `isReceivable()` is true iff not suspended, not
closed, non-empty (§4.2). -/
def isReceivable (mb : BoundedMailbox μ) : Bool :=
  !mb.suspended && !mb.closed && !mb.queue.isEmpty

/-- Modelled from the spec: `send(m)` (§4.2, §7).  A send to a closed mailbox
is diverted to DeadLetters with reason "actor stopped".  Under capacity the
message is enqueued.  At capacity the overflow policy applies: DropOldest
removes and discards the head, enqueues the new message and increments
droppedCount; DropNewest discards the incoming message and increments
droppedCount; Reject redirects the incoming message to DeadLetters with
reason "mailbox overflow", increments droppedCount, and the caller's deferred
rejects with "mailbox overflow". -/
def send (mb : BoundedMailbox μ) (m : μ) : BoundedMailbox μ :=
  if mb.closed then
    { mb with deadLetters := mb.deadLetters ++ [(m, "actor stopped")] }
  else if mb.queue.length < mb.capacity then
    { mb with queue := mb.queue ++ [m] }
  else
    match mb.policy with
    | .DropOldest =>
        { mb with queue := mb.queue.tail ++ [m], dropped := mb.dropped + 1 }
    | .DropNewest =>
        { mb with dropped := mb.dropped + 1 }
    | .Reject =>
        { mb with dropped := mb.dropped + 1
                  deadLetters := mb.deadLetters ++ [(m, "mailbox overflow")]
                  rejections := mb.rejections ++ ["mailbox overflow"] }

/-- Sequence of sends, in order. -/
def sendAll (mb : BoundedMailbox μ) (ms : List μ) : BoundedMailbox μ :=
  ms.foldl send mb

/-- Modelled from the spec: the dispatcher's loop over a mailbox (§4.3 steps
1 and 6) — while the mailbox is receivable, pop the head message and dispatch
it, collecting the dispatched messages in order.  The fuel bounds the number
of dispatch turns. -/
def dispatchLoop (μ : Type) : Nat → BoundedMailbox μ → List μ × BoundedMailbox μ
  | 0, mb => ([], mb)
  | fuel + 1, mb =>
    if mb.isReceivable then
      match mb.queue with
      | [] => ([], mb)
      | m :: rest =>
        let r := dispatchLoop μ fuel { mb with queue := rest }
        (m :: r.1, r.2)
    else ([], mb)

end BoundedMailbox

/-- Modelled from the spec: a value thrown or rejected by a message handler
(§4.3 step 5, §7): either a proper Error carrying a message, or a non-Error
value carried by its string form. -/
inductive Thrown : Type
  | error (msg : String)
  | nonError (strForm : String)
deriving DecidableEq, Repr

/-- Modelled from the spec: §7 "Non-Error thrown value: wrapped in Error with
a stable string form" — the message of the Error the fault surfaces as. -/
def wrapThrown : Thrown → String
  | .error msg => msg
  | .nonError strForm => strForm

/-- Supervision directives, per the spec's SupervisionDirective enum (§6):
Resume, Restart, Stop, Escalate. -/
inductive SupervisionDirective : Type
  | Resume
  | Restart
  | Stop
  | Escalate
deriving DecidableEq, Repr

/-- Modelled from the spec: an actor implementation as the dispatcher sees it
(§3 Actor, §4.3): a construction recipe (`init`, used both for the first
construction and for the fresh instance a restart constructs), and a handler
that maps the current private state and a message to either a new state and
a returned value, or a thrown value. -/
structure ActorModel (σ μ ρ : Type) : Type where
  init : σ
  handle : σ → μ → Except Thrown (σ × ρ)

/-- Observable events of a dispatch run: a handler beginning and completing a
message, a lifecycle hook running, and the replacement of the actor instance
during a restart. -/
inductive Ev (μ : Type) : Type
  | begins (m : μ)
  | completes (m : μ)
  | hook (name : String)
  | replaced
deriving DecidableEq, Repr

/-- Whether an event is a handler begin/complete event. -/
def Ev.isMsgEv : Ev μ → Bool
  | .begins _ => true
  | .completes _ => true
  | _ => false

/-- The begin/complete sub-trace of an event trace. -/
def msgEvents (l : List (Ev μ)) : List (Ev μ) := l.filter Ev.isMsgEv

/-- Result of running the dispatcher over a queue of messages: the final
actor state, the completion of each dispatched message's deferred in
dispatch order (resolved value or rejection message), the errors handed to
the supervisor via `inform` in order, the event trace, whether the actor
was stopped by its supervisor, the dead letters recorded, and the messages
left undispatched (mailbox still suspended after an Escalate). -/
structure RunResult (σ μ ρ : Type) : Type where
  actor : σ
  completions : List (Except String ρ)
  informs : List String
  events : List (Ev μ)
  stopped : Bool
  deadLetters : List (μ × String)
  pending : List μ
deriving Repr

/-- Modelled from the spec: the per-actor dispatcher (§4.3) together with the
supervision directives (§4.5, §4.6), for a supervisor whose strategy always
yields the given directive.  Messages are dispatched one at a time in FIFO
order.  On success the deferred resolves with the returned value.  On failure
the deferred rejects with the (wrapped) error AND the supervisor is informed;
then the directive applies: Resume runs `beforeResume` and continues with the
state unchanged; Restart runs `beforeRestart`, replaces the actor instance
with a freshly constructed one, runs `afterRestart`, and continues with the
same mailbox; Stop stops the actor, draining the queued messages to
DeadLetters with reason "actor stopped"; Escalate leaves this actor's mailbox
suspended while the fault travels upward, so the remaining messages stay
pending. -/
def runQueue (M : ActorModel σ μ ρ) (d : SupervisionDirective) :
    σ → List μ → RunResult σ μ ρ
  | actor, [] =>
    { actor := actor, completions := [], informs := [], events := []
      stopped := false, deadLetters := [], pending := [] }
  | actor, m :: rest =>
    match M.handle actor m with
    | .ok (s, v) =>
      let r := runQueue M d s rest
      { r with completions := .ok v :: r.completions
               events := .begins m :: .completes m :: r.events }
    | .error e =>
      let msg := wrapThrown e
      match d with
      | .Resume =>
        let r := runQueue M d actor rest
        { r with completions := .error msg :: r.completions
                 informs := msg :: r.informs
                 events := .begins m :: .completes m ::
                   .hook "beforeResume" :: r.events }
      | .Restart =>
        let r := runQueue M d M.init rest
        { r with completions := .error msg :: r.completions
                 informs := msg :: r.informs
                 events := .begins m :: .completes m :: .hook "beforeRestart" ::
                   .replaced :: .hook "afterRestart" :: r.events }
      | .Stop =>
        { actor := actor, completions := [.error msg], informs := [msg]
          events := [.begins m, .completes m], stopped := true
          deadLetters := rest.map (fun m2 => (m2, "actor stopped"))
          pending := [] }
      | .Escalate =>
        { actor := actor, completions := [.error msg], informs := [msg]
          events := [.begins m, .completes m], stopped := false
          deadLetters := [], pending := rest }

/-- Modelled from the spec: the per-actor Environment an actor is bound to
(§3): its Address (abstracted to an identifier), its Mailbox, and the
mailbox's suspended flag. -/
structure Environment (μ : Type) : Type where
  addr : Nat
  mailbox : List μ
  suspendedFlag : Bool
deriving DecidableEq, Repr

/-- Modelled from the spec: the Restarting transition (§4.5): suspend the
mailbox, run `beforeRestart(reason)`, construct a fresh actor instance bound
to the same Environment, run `afterRestart(reason)`, resume the mailbox.
Returns the Environment after the transition, the replacement instance, and
the event trace of the transition. -/
def restartTransition (M : ActorModel σ μ ρ) (env : Environment μ) :
    Environment μ × σ × List (Ev μ) :=
  let envSuspended := { env with suspendedFlag := true }
  let freshInstance := M.init
  let envResumed := { envSuspended with suspendedFlag := false }
  (envResumed, freshInstance,
    [.hook "beforeRestart", .replaced, .hook "afterRestart"])

/-- Messages of the Counter protocol of the repository's Counter tests:
increment, getValue, and the causeError message of the supervision tests. -/
inductive CounterMsg : Type
  | increment
  | getValue
  | causeError
deriving DecidableEq, Repr

/-- The CounterActor of the repository's tests, as an ActorModel: private
state is the count, starting at 0; `increment` adds one and resolves with
no value; `getValue` resolves with the count; `causeError` throws
"Intentional message processing error". -/
def counterModel : ActorModel Nat CounterMsg (Option Nat) :=
  { init := 0
    handle := fun count m =>
      match m with
      | .increment => .ok (count + 1, none)
      | .getValue => .ok (count, some count)
      | .causeError => .error (.error "Intentional message processing error") }

/-- The StringThrowingActor of the repository's supervision tests, as an
ActorModel: its only message throws the plain string
"This is a string error" (a non-Error value). -/
def stringThrowingModel : ActorModel Unit Unit (Option Nat) :=
  { init := ()
    handle := fun _ _ => .error (.nonError "This is a string error") }

/-- LifeCycle states per the spec's state machine (§3 LifeCycle). -/
inductive LifeCycleState : Type
  | Constructed
  | Starting
  | Running
  | Suspended
  | Restarting
  | Stopping
  | Stopped
deriving DecidableEq, Repr

/-- Accessor `isStopped()` per §8 P4: true iff the lifecycle reached Stopped. -/
def LifeCycleState.isStopped : LifeCycleState → Bool
  | .Stopped => true
  | _ => false

/-- Which of an actor's lifecycle hooks throw when run, and with what thrown
value (none = the hook returns normally). -/
structure HookFaults : Type where
  beforeStartFault : Option Thrown
  beforeStopFault : Option Thrown
  afterStopFault : Option Thrown
  beforeRestartFault : Option Thrown
  afterRestartFault : Option Thrown
  beforeResumeFault : Option Thrown
deriving Repr

/-- Modelled from the spec: running one lifecycle hook under the hook error
policy (§4.5): any thrown value is caught and logged with the hook's name
(the repository's tests pin the log line form "<hook>() failed"), and the
surrounding transition continues.  Returns the log entries produced. -/
def runHook (name : String) (fault : Option Thrown) : List String :=
  match fault with
  | some _ => [name ++ "() failed"]
  | none => []

/-- Modelled from the spec: the Constructed → Starting → Running transition
(§4.5): run `beforeStart` (errors logged, not fatal), then enter Running.
Returns the resulting state and the log. -/
def startTransition (h : HookFaults) : LifeCycleState × List String :=
  (.Running, runHook "beforeStart" h.beforeStartFault)

/-- Modelled from the spec: the shutdown sequence (§4.5 Stopping → Stopped):
suspend the mailbox, run `beforeStop` (log-on-fail), close the mailbox
draining queued messages to DeadLetters with reason "actor stopped", run
`afterStop` (log-on-fail), reach Stopped.  Returns the resulting state, the
log, and the dead letters drained from the queue. -/
def stopSequence (h : HookFaults) (queue : List μ) :
    LifeCycleState × List String × List (μ × String) :=
  let logBefore := runHook "beforeStop" h.beforeStopFault
  let drained := queue.map (fun m => (m, "actor stopped"))
  let logAfter := runHook "afterStop" h.afterStopFault
  (.Stopped, logBefore ++ logAfter, drained)

/-- Modelled from the spec: the Restarting transition (§4.5): suspend the
mailbox, run `beforeRestart` (log-on-fail), replace the actor instance, run
`afterRestart` (log-on-fail), resume the mailbox, return to Running.
Returns the resulting state and the log. -/
def restartSequence (h : HookFaults) : LifeCycleState × List String :=
  let logBefore := runHook "beforeRestart" h.beforeRestartFault
  let logAfter := runHook "afterRestart" h.afterRestartFault
  (.Running, logBefore ++ logAfter)

/-- Modelled from the spec: the Resume directive's transition (§4.5, §4.6):
run `beforeResume` (log-on-fail), ensure the mailbox is resumed, stay
Running.  Returns the resulting state and the log. -/
def resumeTransition (h : HookFaults) : LifeCycleState × List String :=
  (.Running, runHook "beforeResume" h.beforeResumeFault)

/-- An actor hierarchy: each node is an actor with its set of child actors
(§3 Environment: children). -/
inductive ActorTree : Type
  | node (name : String) (children : List ActorTree)

/-- The name of the actor at the root of a hierarchy. -/
def ActorTree.rootName : ActorTree → String
  | .node n _ => n

/-- Hook events observed during a hierarchical shutdown. -/
inductive StopEv : Type
  | beforeStopOf (name : String)
  | afterStopOf (name : String)
deriving DecidableEq, Repr

mutual

/-- Modelled from the spec: the trace of hook events of stopping an actor
hierarchy (§4.5 shutdown): the stopping actor's `beforeStop` runs, then each
child in the current child set is stopped (each child recursively running its
own shutdown), and only after all children have stopped does the actor's
`afterStop` run. -/
def stopTrace : ActorTree → List StopEv
  | .node n cs => .beforeStopOf n :: (stopTraceAll cs ++ [.afterStopOf n])

/-- The concatenated shutdown traces of a list of child hierarchies, in
order. -/
def stopTraceAll : List ActorTree → List StopEv
  | [] => []
  | t :: ts => stopTrace t ++ stopTraceAll ts

end

/-- Relation: `p` is the parent of the actor named `c` somewhere inside the hierarchy
`t`: some node of `t` is named `p` and has a child subtree whose root is
named `c`. -/
inductive ParentChildIn : ActorTree → String → String → Prop
  | here {p : String} {cs : List ActorTree} {c : ActorTree} :
      c ∈ cs → ParentChildIn (.node p cs) p c.rootName
  | there {n : String} {cs : List ActorTree} {t : ActorTree} {p c : String} :
      t ∈ cs → ParentChildIn t p c → ParentChildIn (.node n cs) p c

/-- Relation: `a` occurs strictly before `b` in the list `l`. -/
def Precedes (a b : α) (l : List α) : Prop :=
  ∃ l1 l2 l3, l = l1 ++ a :: (l2 ++ b :: l3)

/-- State of a ScheduledTask, translated from the source class
`ScheduledTask` (Scheduler source): the optional timeout id, the optional
interval id, and the `_cancelled` flag. -/
structure ScheduledTask : Type where
  timeoutId : Option Nat
  intervalId : Option Nat
  cancelled : Bool
deriving DecidableEq, Repr

/-- Result of `ScheduledTask.cancel()`: the returned boolean, the task state
afterwards, and the timer ids passed to clearTimeout/clearInterval. -/
structure CancelResult : Type where
  returned : Bool
  task : ScheduledTask
  cleared : List Nat
deriving DecidableEq, Repr

/-- Method `ScheduledTask.cancel()`, translated from the source: if already
cancelled, return false; otherwise set `_cancelled`, clear the timeout and
interval ids that are present (un-setting them), and return true. -/
def ScheduledTask.cancel (t : ScheduledTask) : CancelResult :=
  if t.cancelled then
    { returned := false, task := t, cleared := [] }
  else
    { returned := true
      task := { timeoutId := none, intervalId := none, cancelled := true }
      cleared := t.timeoutId.toList ++ t.intervalId.toList }

/-- Method `ScheduledTask.isCancelled()`, translated from the source. -/
def ScheduledTask.isCancelled (t : ScheduledTask) : Bool := t.cancelled

/-- The rejection messages among a list of deferred completions, in order. -/
def rejectedOf (l : List (Except String ρ)) : List String :=
  l.filterMap (fun c => match c with | .error e => some e | .ok _ => none)

namespace BoundedMailbox

theorem sendAll_cons (mb : BoundedMailbox μ) (m : μ) (ms : List μ) :
    sendAll mb (m :: ms) = sendAll (send mb m) ms := rfl

/-- Invariant of repeated sends under DropOldest from any reachable state:
the queue holds the suffix of all messages ever enqueued that fits the
capacity, and droppedCount counts the overflow. -/
theorem sendAll_dropOldest (ms : List μ) :
    ∀ mb : BoundedMailbox μ, mb.policy = .DropOldest → mb.closed = false →
    1 ≤ mb.capacity → mb.queue.length ≤ mb.capacity →
    (sendAll mb ms).queue
        = (mb.queue ++ ms).drop (mb.queue.length + ms.length - mb.capacity) ∧
    (sendAll mb ms).dropped
        = mb.dropped + (mb.queue.length + ms.length - mb.capacity) := by
  induction ms with
  | nil =>
    intro mb _ _ _ hlen
    have h0 : mb.queue.length - mb.capacity = 0 := by omega
    simp [sendAll, h0]
  | cons m rest ih =>
    intro mb hpol hcl hcap hlen
    rw [sendAll_cons]
    by_cases hq : mb.queue.length < mb.capacity
    · have hsend : send mb m = { mb with queue := mb.queue ++ [m] } := by
        simp [send, hcl, hq]
      rw [hsend]
      obtain ⟨h1, h2⟩ := ih { mb with queue := mb.queue ++ [m] }
        (by simpa using hpol) (by simpa using hcl) (by simpa using hcap)
        (by simp; omega)
      refine ⟨?_, ?_⟩
      · rw [h1]
        dsimp only
        have e1 : (mb.queue ++ [m]).length + rest.length - mb.capacity
            = mb.queue.length + (m :: rest).length - mb.capacity := by
          simp
          omega
        rw [e1, List.append_assoc, List.singleton_append]
      · rw [h2]
        dsimp only
        simp
        omega
    · have hfull : mb.queue.length = mb.capacity := by omega
      have hsend : send mb m
          = { mb with queue := mb.queue.tail ++ [m], dropped := mb.dropped + 1 } := by
        simp [send, hcl, hq, hpol]
      rw [hsend]
      cases hqe : mb.queue with
      | nil => rw [hqe] at hfull; simp at hfull; omega
      | cons a as =>
        simp only [List.tail_cons]
        have hlenas : as.length + 1 = mb.capacity := by
          have hf2 := hfull
          rw [hqe] at hf2
          simpa using hf2
        obtain ⟨h1, h2⟩ := ih { mb with queue := as ++ [m], dropped := mb.dropped + 1 }
          (by simpa using hpol) (by simpa using hcl) (by simpa using hcap)
          (by simp; omega)
        refine ⟨?_, ?_⟩
        · rw [h1]
          dsimp only
          have e1 : (as ++ [m]).length + rest.length - mb.capacity = rest.length := by
            simp
            omega
          have e2 : (a :: as).length + (m :: rest).length - mb.capacity
              = rest.length + 1 := by
            simp
            omega
          rw [e1, e2, List.append_assoc, List.singleton_append, List.cons_append,
            List.drop_succ_cons]
        · rw [h2]
          dsimp only
          simp
          omega

/-- Invariant of repeated sends under DropNewest from any reachable state:
the queue holds the earliest messages that fit the capacity, and droppedCount
counts the overflow. -/
theorem sendAll_dropNewest (ms : List μ) :
    ∀ mb : BoundedMailbox μ, mb.policy = .DropNewest → mb.closed = false →
    mb.queue.length ≤ mb.capacity →
    (sendAll mb ms).queue = (mb.queue ++ ms).take mb.capacity ∧
    (sendAll mb ms).dropped
        = mb.dropped + (mb.queue.length + ms.length - mb.capacity) := by
  induction ms with
  | nil =>
    intro mb _ _ hlen
    have h0 : mb.queue.length - mb.capacity = 0 := by omega
    simp [sendAll, h0, List.take_of_length_le hlen]
  | cons m rest ih =>
    intro mb hpol hcl hlen
    rw [sendAll_cons]
    by_cases hq : mb.queue.length < mb.capacity
    · have hsend : send mb m = { mb with queue := mb.queue ++ [m] } := by
        simp [send, hcl, hq]
      rw [hsend]
      obtain ⟨h1, h2⟩ := ih { mb with queue := mb.queue ++ [m] }
        (by simpa using hpol) (by simpa using hcl) (by simp; omega)
      refine ⟨?_, ?_⟩
      · rw [h1]
        dsimp only
        rw [List.append_assoc, List.singleton_append]
      · rw [h2]
        dsimp only
        simp
        omega
    · have hfull : mb.queue.length = mb.capacity := by omega
      have hsend : send mb m = { mb with dropped := mb.dropped + 1 } := by
        simp [send, hcl, hq, hpol]
      rw [hsend]
      obtain ⟨h1, h2⟩ := ih { mb with dropped := mb.dropped + 1 }
        (by simpa using hpol) (by simpa using hcl) (by simpa using hlen)
      refine ⟨?_, ?_⟩
      · rw [h1]
        dsimp only
        rw [List.take_append_of_le_length (by omega),
          List.take_append_of_le_length (by omega)]
      · rw [h2]
        dsimp only
        simp
        omega

/-- After resume, the dispatch loop pops every queued message in FIFO order
(§4.2 resume, §8 P3). -/
theorem dispatchLoop_drains (q : List μ) :
    ∀ mb : BoundedMailbox μ, mb.queue = q → mb.closed = false →
    mb.suspended = false →
    (dispatchLoop μ q.length mb).1 = q ∧ (dispatchLoop μ q.length mb).2.queue = [] := by
  induction q with
  | nil =>
    intro mb hq _ _
    simp [dispatchLoop, hq]
  | cons m rest ih =>
    intro mb hq hcl hsus
    have hrecv : mb.isReceivable = true := by
      simp [isReceivable, hq, hcl, hsus]
    obtain ⟨h1, h2⟩ := ih { mb with queue := rest } (by simp) (by simpa using hcl)
      (by simpa using hsus)
    refine ⟨?_, ?_⟩
    · show (dispatchLoop μ (rest.length + 1) mb).1 = m :: rest
      rw [dispatchLoop, hrecv]
      simp only [if_true, hq]
      rw [h1]
    · show (dispatchLoop μ (rest.length + 1) mb).2.queue = []
      rw [dispatchLoop, hrecv]
      simp only [if_true, hq]
      rw [h2]

end BoundedMailbox

/-- C2: for every bounded mailbox of capacity C (C ≥ 1) whose dispatch is
suspended, after the N sends of `ms`: under DropOldest the mailbox contains
exactly the last min(N, C) messages, under DropNewest exactly the first
min(N, C) messages, and in both cases droppedMessageCount() equals
N - C (truncated subtraction, i.e. max(0, N - C)). -/
theorem bounded_overflow_policies (C : Nat) (hC : 1 ≤ C) (ms : List Nat) :
    ((BoundedMailbox.sendAll ((BoundedMailbox.fresh Nat C .DropOldest).suspend)
        ms).queue = ms.drop (ms.length - C) ∧
     (BoundedMailbox.sendAll ((BoundedMailbox.fresh Nat C .DropOldest).suspend)
        ms).queue.length = min ms.length C ∧
     (BoundedMailbox.sendAll ((BoundedMailbox.fresh Nat C .DropOldest).suspend)
        ms).droppedMessageCount = ms.length - C) ∧
    ((BoundedMailbox.sendAll ((BoundedMailbox.fresh Nat C .DropNewest).suspend)
        ms).queue = ms.take C ∧
     (BoundedMailbox.sendAll ((BoundedMailbox.fresh Nat C .DropNewest).suspend)
        ms).queue.length = min ms.length C ∧
     (BoundedMailbox.sendAll ((BoundedMailbox.fresh Nat C .DropNewest).suspend)
        ms).droppedMessageCount = ms.length - C) := by
  obtain ⟨hq1, hd1⟩ := BoundedMailbox.sendAll_dropOldest ms
    ((BoundedMailbox.fresh Nat C .DropOldest).suspend) rfl rfl hC (Nat.zero_le C)
  obtain ⟨hq2, hd2⟩ := BoundedMailbox.sendAll_dropNewest ms
    ((BoundedMailbox.fresh Nat C .DropNewest).suspend) rfl rfl (Nat.zero_le C)
  have hq1s : (BoundedMailbox.sendAll
      ((BoundedMailbox.fresh Nat C .DropOldest).suspend) ms).queue
      = ms.drop (ms.length - C) := by
    simpa [BoundedMailbox.fresh, BoundedMailbox.suspend] using hq1
  have hq2s : (BoundedMailbox.sendAll
      ((BoundedMailbox.fresh Nat C .DropNewest).suspend) ms).queue
      = ms.take C := by
    simpa [BoundedMailbox.fresh, BoundedMailbox.suspend] using hq2
  refine ⟨⟨hq1s, ?_, ?_⟩, ⟨hq2s, ?_, ?_⟩⟩
  · rw [hq1s, List.length_drop]
    omega
  · show (BoundedMailbox.sendAll
        ((BoundedMailbox.fresh Nat C .DropOldest).suspend) ms).dropped
        = ms.length - C
    simpa [BoundedMailbox.fresh, BoundedMailbox.suspend] using hd1
  · rw [hq2s, List.length_take]
    omega
  · show (BoundedMailbox.sendAll
        ((BoundedMailbox.fresh Nat C .DropNewest).suspend) ms).dropped
        = ms.length - C
    simpa [BoundedMailbox.fresh, BoundedMailbox.suspend] using hd2

/-- Witness for C2 at capacity 3 and sends 1..5: DropOldest keeps [3, 4, 5]
with 2 dropped; DropNewest keeps [1, 2, 3] with 2 dropped. -/
theorem bounded_overflow_policies_witness :
    (BoundedMailbox.sendAll ((BoundedMailbox.fresh Nat 3 .DropOldest).suspend)
        [1, 2, 3, 4, 5]).queue = [3, 4, 5] ∧
    (BoundedMailbox.sendAll ((BoundedMailbox.fresh Nat 3 .DropOldest).suspend)
        [1, 2, 3, 4, 5]).droppedMessageCount = 2 ∧
    (BoundedMailbox.sendAll ((BoundedMailbox.fresh Nat 3 .DropNewest).suspend)
        [1, 2, 3, 4, 5]).queue = [1, 2, 3] ∧
    (BoundedMailbox.sendAll ((BoundedMailbox.fresh Nat 3 .DropNewest).suspend)
        [1, 2, 3, 4, 5]).droppedMessageCount = 2 := by
  obtain ⟨⟨h1, _, h2⟩, ⟨h3, _, h4⟩⟩ :=
    bounded_overflow_policies 3 (by decide) [1, 2, 3, 4, 5]
  exact ⟨by simpa using h1, by simpa using h2, by simpa using h3,
    by simpa using h4⟩

/-- C8: a bounded mailbox with the Reject policy that is at capacity, on an
additional send, records the incoming message in DeadLetters with reason
"mailbox overflow", increments droppedMessageCount by one, rejects the
caller's deferred with "mailbox overflow", and leaves the queued messages
intact, so that after resume the dispatch loop processes exactly the
already-queued messages in order. -/
theorem reject_overflow_spec (mb : BoundedMailbox Nat) (m : Nat)
    (hpol : mb.policy = .Reject) (hcl : mb.closed = false)
    (hfull : mb.isFull = true) (_hsus : mb.suspended = true) :
    (mb.send m).queue = mb.queue ∧
    (mb.send m).droppedMessageCount = mb.droppedMessageCount + 1 ∧
    (mb.send m).deadLetters = mb.deadLetters ++ [(m, "mailbox overflow")] ∧
    (mb.send m).rejections = mb.rejections ++ ["mailbox overflow"] ∧
    (BoundedMailbox.dispatchLoop Nat ((mb.send m).resume).size
        ((mb.send m).resume)).1 = mb.queue := by
  have hq : ¬mb.queue.length < mb.capacity := by
    simp [BoundedMailbox.isFull] at hfull
    omega
  have hsend : mb.send m
      = { mb with dropped := mb.dropped + 1
                  deadLetters := mb.deadLetters ++ [(m, "mailbox overflow")]
                  rejections := mb.rejections ++ ["mailbox overflow"] } := by
    simp [BoundedMailbox.send, hcl, hq, hpol]
  have hres : (mb.send m).resume
      = { mb with dropped := mb.dropped + 1
                  deadLetters := mb.deadLetters ++ [(m, "mailbox overflow")]
                  rejections := mb.rejections ++ ["mailbox overflow"]
                  suspended := false } := by
    rw [hsend]
    simp [BoundedMailbox.resume, hcl]
  refine ⟨by rw [hsend], by rw [hsend]; rfl, by rw [hsend], by rw [hsend], ?_⟩
  rw [hres]
  have hd := BoundedMailbox.dispatchLoop_drains mb.queue
    { mb with dropped := mb.dropped + 1
              deadLetters := mb.deadLetters ++ [(m, "mailbox overflow")]
              rejections := mb.rejections ++ ["mailbox overflow"]
              suspended := false } rfl hcl rfl
  exact hd.1

/-- Witness for C8: capacity 3, Reject policy, suspended, filled with
[1, 2, 3]; the overflowing send of 4 leaves the queue [1, 2, 3], drops one
message to DeadLetters with "mailbox overflow", rejects with
"mailbox overflow", and after resume the loop processes [1, 2, 3]. -/
theorem reject_overflow_spec_witness :
    (BoundedMailbox.sendAll ((BoundedMailbox.fresh Nat 3 .Reject).suspend)
        [1, 2, 3]).policy = .Reject ∧
    ((BoundedMailbox.sendAll ((BoundedMailbox.fresh Nat 3 .Reject).suspend)
        [1, 2, 3]).send 4).queue = [1, 2, 3] ∧
    ((BoundedMailbox.sendAll ((BoundedMailbox.fresh Nat 3 .Reject).suspend)
        [1, 2, 3]).send 4).droppedMessageCount = 1 ∧
    ((BoundedMailbox.sendAll ((BoundedMailbox.fresh Nat 3 .Reject).suspend)
        [1, 2, 3]).send 4).deadLetters = [(4, "mailbox overflow")] ∧
    ((BoundedMailbox.sendAll ((BoundedMailbox.fresh Nat 3 .Reject).suspend)
        [1, 2, 3]).send 4).rejections = ["mailbox overflow"] ∧
    (BoundedMailbox.dispatchLoop Nat
        (((BoundedMailbox.sendAll ((BoundedMailbox.fresh Nat 3 .Reject).suspend)
          [1, 2, 3]).send 4).resume).size
        (((BoundedMailbox.sendAll ((BoundedMailbox.fresh Nat 3 .Reject).suspend)
          [1, 2, 3]).send 4).resume)).1 = [1, 2, 3] := by
  obtain ⟨h1, h2, h3, h4, h5⟩ := reject_overflow_spec
    (BoundedMailbox.sendAll ((BoundedMailbox.fresh Nat 3 .Reject).suspend)
      [1, 2, 3]) 4 rfl rfl (by decide) rfl
  refine ⟨rfl, ?_, ?_, ?_, ?_, ?_⟩
  · rw [h1]; rfl
  · rw [h2]; rfl
  · rw [h3]; rfl
  · rw [h4]; rfl
  · rw [h5]; rfl

/-- C10: constructing a BoundedMailbox with non-positive capacity fails with
"Mailbox capacity must be positive" for every overflow policy, while any
capacity ≥ 1 succeeds and yields a mailbox whose getCapacity() equals that
capacity, with size() 0, isFull() false and droppedMessageCount() 0. -/
theorem bounded_mailbox_constructor_spec (c : Int) (pol : OverflowPolicy) :
    (c ≤ 0 →
      BoundedMailbox.make Nat c pol
        = .error "Mailbox capacity must be positive") ∧
    (1 ≤ c → ∃ mb : BoundedMailbox Nat,
      BoundedMailbox.make Nat c pol = .ok mb ∧
      (mb.getCapacity : Int) = c ∧ mb.size = 0 ∧ mb.isFull = false ∧
      mb.droppedMessageCount = 0) := by
  constructor
  · intro h
    simp [BoundedMailbox.make, h]
  · intro h
    refine ⟨BoundedMailbox.fresh Nat c.toNat pol, ?_, ?_, rfl, ?_, rfl⟩
    · rw [BoundedMailbox.make, if_neg (by omega)]
    · show ((c.toNat : Nat) : Int) = c
      omega
    · show decide (c.toNat ≤ ([] : List Nat).length) = false
      simp
      omega

/-- Witness for C10: capacity 0 fails; capacity 3 yields an empty, non-full
mailbox of capacity 3 with nothing dropped. -/
theorem bounded_mailbox_constructor_spec_witness :
    (BoundedMailbox.make Nat 0 .Reject
        = .error "Mailbox capacity must be positive") ∧
    (∃ mb : BoundedMailbox Nat,
      BoundedMailbox.make Nat 3 .DropOldest = .ok mb ∧
      (mb.getCapacity : Int) = 3 ∧ mb.size = 0 ∧ mb.isFull = false ∧
      mb.droppedMessageCount = 0) :=
  ⟨(bounded_mailbox_constructor_spec 0 .Reject).1 (by decide),
   (bounded_mailbox_constructor_spec 3 .DropOldest).2 (by decide)⟩

/-- C1: the dispatcher processes messages one at a time in FIFO order — for
any actor model, directive and send order, the begin/complete sub-trace is
exactly "begin m, complete m" for a prefix of the sends, so an earlier
message's handler begins and completes before a later message's handler
begins; consequently a Counter at 0 receiving increment, increment,
increment, getValue() resolves getValue with 3. -/
theorem fifo_dispatch (M : ActorModel σ μ ρ) (d : SupervisionDirective)
    (a : σ) (ms : List μ) :
    (∃ k, msgEvents (runQueue M d a ms).events
        = (ms.take k).flatMap (fun m => [Ev.begins m, Ev.completes m])) ∧
    (runQueue counterModel .Restart 0
        [.increment, .increment, .increment, .getValue]).completions
      = [.ok none, .ok none, .ok none, .ok (some 3)] := by
  refine ⟨?_, rfl⟩
  induction ms generalizing a with
  | nil => exact ⟨0, rfl⟩
  | cons m rest ih =>
    show ∃ k, msgEvents (runQueue M d a (m :: rest)).events = _
    rw [runQueue]
    cases hh : M.handle a m with
    | ok sv =>
      obtain ⟨k, hk⟩ := ih sv.1
      refine ⟨k + 1, ?_⟩
      simp only [msgEvents, List.filter, Ev.isMsgEv] at hk ⊢
      simp [hk]
    | error e =>
      cases d with
      | Resume =>
        obtain ⟨k, hk⟩ := ih a
        refine ⟨k + 1, ?_⟩
        simp only [msgEvents, List.filter, Ev.isMsgEv] at hk ⊢
        simp [hk]
      | Restart =>
        obtain ⟨k, hk⟩ := ih M.init
        refine ⟨k + 1, ?_⟩
        simp only [msgEvents, List.filter, Ev.isMsgEv] at hk ⊢
        simp [hk]
      | Stop =>
        refine ⟨1, ?_⟩
        simp [msgEvents, List.filter, Ev.isMsgEv]
      | Escalate =>
        refine ⟨1, ?_⟩
        simp [msgEvents, List.filter, Ev.isMsgEv]

/-- C3: every handler fault — with any thrown value, non-Error values being
wrapped — rejects the caller's deferred AND informs the supervisor with the
same error: for every run, the sequence of errors handed to the supervisor
equals the sequence of deferred rejections; for the string-throwing actor the
single fault surfaces as "This is a string error" in both places. -/
theorem fault_rejects_and_informs (M : ActorModel σ μ ρ)
    (d : SupervisionDirective) (a : σ) (ms : List μ) :
    (runQueue M d a ms).informs = rejectedOf (runQueue M d a ms).completions ∧
    (runQueue stringThrowingModel d () [()]).informs
      = ["This is a string error"] ∧
    (runQueue stringThrowingModel d () [()]).completions
      = [.error "This is a string error"] := by
  refine ⟨?_, ?_, ?_⟩
  · induction ms generalizing a with
    | nil => rfl
    | cons m rest ih =>
      rw [runQueue]
      cases hh : M.handle a m with
      | ok sv =>
        simpa [rejectedOf] using ih sv.1
      | error e =>
        cases d with
        | Resume => simpa [rejectedOf] using ih a
        | Restart => simpa [rejectedOf] using ih M.init
        | Stop => rfl
        | Escalate => rfl
  · cases d <;> rfl
  · cases d <;> rfl

/-- C4: the Restart directive preserves the Address and Mailbox of the
Environment and replaces the Actor instance with a freshly constructed one,
running `beforeRestart` before the replacement and `afterRestart` after;
after the failing message rejects the deferred, the remaining mailbox is
processed by the fresh instance; hence a Counter at 3 that fails under a
Restart supervisor rejects the caller's deferred and a subsequent getValue()
resolves with 0. -/
theorem restart_directive_spec (M : ActorModel σ μ ρ) (env : Environment μ)
    (a : σ) (m : μ) (rest : List μ) (e : Thrown)
    (hfail : M.handle a m = .error e) :
    ((restartTransition M env).1.addr = env.addr ∧
     (restartTransition M env).1.mailbox = env.mailbox ∧
     (restartTransition M env).2.1 = M.init ∧
     (restartTransition M env).2.2
        = [.hook "beforeRestart", .replaced, .hook "afterRestart"]) ∧
    ((runQueue M .Restart a (m :: rest)).completions
        = .error (wrapThrown e)
            :: (runQueue M .Restart M.init rest).completions ∧
     (runQueue M .Restart a (m :: rest)).informs
        = wrapThrown e :: (runQueue M .Restart M.init rest).informs ∧
     (runQueue M .Restart a (m :: rest)).events
        = .begins m :: .completes m :: .hook "beforeRestart" :: .replaced ::
          .hook "afterRestart" :: (runQueue M .Restart M.init rest).events) ∧
    (runQueue counterModel .Restart 0
        [.increment, .increment, .increment, .causeError, .getValue]).completions
      = [.ok none, .ok none, .ok none,
         .error "Intentional message processing error", .ok (some 0)] := by
  refine ⟨⟨rfl, rfl, rfl, rfl⟩, ⟨?_, ?_, ?_⟩, rfl⟩ <;>
    rw [runQueue, hfail]

/-- Witness for C4 at the Counter: state 3, causeError fails, the transition
and dispatch equations hold concretely. -/
theorem restart_directive_spec_witness :
    counterModel.handle 3 .causeError
        = .error (.error "Intentional message processing error") ∧
    (runQueue counterModel .Restart 3 [.causeError, .getValue]).completions
      = [.error "Intentional message processing error", .ok (some 0)] := by
  have h := restart_directive_spec counterModel
    { addr := 1, mailbox := [CounterMsg.getValue], suspendedFlag := false }
    3 .causeError [.getValue]
    (.error "Intentional message processing error") rfl
  refine ⟨rfl, ?_⟩
  rw [h.2.1.1]
  rfl

/-- C5: the Resume directive preserves the actor's private state — after the
failing message rejects the deferred and `beforeResume` runs, dispatch
continues from exactly the state the actor had before the failing message;
hence a Counter holding 3 still answers 3 to getValue() after the failure and
processes subsequent messages normally. -/
theorem resume_directive_spec (M : ActorModel σ μ ρ)
    (a : σ) (m : μ) (rest : List μ) (e : Thrown)
    (hfail : M.handle a m = .error e) :
    ((runQueue M .Resume a (m :: rest)).actor
        = (runQueue M .Resume a rest).actor ∧
     (runQueue M .Resume a (m :: rest)).completions
        = .error (wrapThrown e) :: (runQueue M .Resume a rest).completions ∧
     (runQueue M .Resume a (m :: rest)).informs
        = wrapThrown e :: (runQueue M .Resume a rest).informs ∧
     (runQueue M .Resume a (m :: rest)).events
        = .begins m :: .completes m :: .hook "beforeResume"
            :: (runQueue M .Resume a rest).events) ∧
    (runQueue counterModel .Resume 0
        [.increment, .increment, .increment, .causeError, .getValue,
         .increment, .getValue]).completions
      = [.ok none, .ok none, .ok none,
         .error "Intentional message processing error", .ok (some 3),
         .ok none, .ok (some 4)] := by
  refine ⟨⟨?_, ?_, ?_, ?_⟩, rfl⟩ <;>
    rw [runQueue, hfail]

/-- Witness for C5 at the Counter: state 3, causeError fails, the state after
supervision equals the state before and getValue answers 3. -/
theorem resume_directive_spec_witness :
    counterModel.handle 3 .causeError
        = .error (.error "Intentional message processing error") ∧
    (runQueue counterModel .Resume 3 [.causeError, .getValue]).completions
      = [.error "Intentional message processing error", .ok (some 3)] ∧
    (runQueue counterModel .Resume 3 [.causeError, .getValue]).actor = 3 := by
  have h := resume_directive_spec counterModel 3 .causeError [.getValue]
    (.error "Intentional message processing error") rfl
  refine ⟨rfl, ?_, ?_⟩
  · rw [h.1.2.1]
    rfl
  · rw [h.1.1]
    rfl

/-- C6: for every assignment of thrown values to lifecycle hooks, each owning
transition still completes — the stop sequence reaches Stopped (isStopped()
true) and drains the queue, the restart sequence completes, start and resume
reach Running — and every hook that threw is logged with the hook's name. -/
theorem hook_faults_logged_transitions_complete (μ : Type) (h : HookFaults)
    (queue : List μ) :
    ((stopSequence h queue).1 = .Stopped ∧
     (stopSequence h queue).1.isStopped = true ∧
     (stopSequence h queue).2.2 = queue.map (fun m => (m, "actor stopped")) ∧
     (h.beforeStopFault.isSome = true →
       "beforeStop() failed" ∈ (stopSequence h queue).2.1) ∧
     (h.afterStopFault.isSome = true →
       "afterStop() failed" ∈ (stopSequence h queue).2.1)) ∧
    ((restartSequence h).1 = .Running ∧
     (h.beforeRestartFault.isSome = true →
       "beforeRestart() failed" ∈ (restartSequence h).2) ∧
     (h.afterRestartFault.isSome = true →
       "afterRestart() failed" ∈ (restartSequence h).2)) ∧
    ((startTransition h).1 = .Running ∧
     (h.beforeStartFault.isSome = true →
       "beforeStart() failed" ∈ (startTransition h).2)) ∧
    ((resumeTransition h).1 = .Running ∧
     (h.beforeResumeFault.isSome = true →
       "beforeResume() failed" ∈ (resumeTransition h).2)) := by
  refine ⟨⟨rfl, rfl, rfl, ?_, ?_⟩, ⟨rfl, ?_, ?_⟩, ⟨rfl, ?_⟩, ⟨rfl, ?_⟩⟩
  · intro hf
    obtain ⟨e, heq⟩ := Option.isSome_iff_exists.mp hf
    cases h2 : h.afterStopFault <;>
      simp [stopSequence, runHook, heq, h2]
  · intro hf
    obtain ⟨e, heq⟩ := Option.isSome_iff_exists.mp hf
    cases h2 : h.beforeStopFault <;>
      simp [stopSequence, runHook, heq, h2]
  · intro hf
    obtain ⟨e, heq⟩ := Option.isSome_iff_exists.mp hf
    cases h2 : h.afterRestartFault <;>
      simp [restartSequence, runHook, heq, h2]
  · intro hf
    obtain ⟨e, heq⟩ := Option.isSome_iff_exists.mp hf
    cases h2 : h.beforeRestartFault <;>
      simp [restartSequence, runHook, heq, h2]
  · intro hf
    obtain ⟨e, heq⟩ := Option.isSome_iff_exists.mp hf
    simp [startTransition, runHook, heq]
  · intro hf
    obtain ⟨e, heq⟩ := Option.isSome_iff_exists.mp hf
    simp [resumeTransition, runHook, heq]

/-- Witness for C6: an actor all of whose six hooks throw still stops,
restarts, starts and resumes, with each hook failure logged. -/
theorem hook_faults_logged_witness :
    (stopSequence
        { beforeStartFault := some (.error "a"), beforeStopFault := some (.error "b")
          afterStopFault := some (.error "c"), beforeRestartFault := some (.error "d")
          afterRestartFault := some (.error "e"), beforeResumeFault := some (.error "f") }
        [1]).1.isStopped = true ∧
    "beforeStop() failed" ∈ (stopSequence
        { beforeStartFault := some (.error "a"), beforeStopFault := some (.error "b")
          afterStopFault := some (.error "c"), beforeRestartFault := some (.error "d")
          afterRestartFault := some (.error "e"), beforeResumeFault := some (.error "f") }
        ([1] : List Nat)).2.1 ∧
    (restartSequence
        { beforeStartFault := some (.error "a"), beforeStopFault := some (.error "b")
          afterStopFault := some (.error "c"), beforeRestartFault := some (.error "d")
          afterRestartFault := some (.error "e"), beforeResumeFault := some (.error "f") }).1
      = .Running ∧
    "beforeRestart() failed" ∈ (restartSequence
        { beforeStartFault := some (.error "a"), beforeStopFault := some (.error "b")
          afterStopFault := some (.error "c"), beforeRestartFault := some (.error "d")
          afterRestartFault := some (.error "e"), beforeResumeFault := some (.error "f") }).2 := by
  have h := hook_faults_logged_transitions_complete Nat
    { beforeStartFault := some (.error "a"), beforeStopFault := some (.error "b")
      afterStopFault := some (.error "c"), beforeRestartFault := some (.error "d")
      afterRestartFault := some (.error "e"), beforeResumeFault := some (.error "f") }
    [1]
  exact ⟨h.1.2.1, h.1.2.2.2.1 rfl, h.2.1.1, h.2.1.2.1 rfl⟩

theorem afterStop_mem_stopTrace (t : ActorTree) :
    StopEv.afterStopOf t.rootName ∈ stopTrace t := by
  cases t with
  | node n cs => simp [stopTrace, ActorTree.rootName]

theorem stopTraceAll_split {t : ActorTree} :
    ∀ {ts : List ActorTree}, t ∈ ts →
    ∃ l r, stopTraceAll ts = l ++ (stopTrace t ++ r) := by
  intro ts h
  induction ts with
  | nil => cases h
  | cons s ss ih =>
    rcases List.mem_cons.mp h with heq | hmem
    · refine ⟨[], stopTraceAll ss, ?_⟩
      subst heq
      rfl
    · obtain ⟨l, r, hr⟩ := ih hmem
      refine ⟨stopTrace s ++ l, r, ?_⟩
      show stopTrace s ++ stopTraceAll ss = _
      rw [hr, List.append_assoc]

theorem precedes_within {a b : α} {mid : List α} (h : Precedes a b mid)
    (x y : List α) : Precedes a b (x ++ (mid ++ y)) := by
  obtain ⟨l1, l2, l3, rfl⟩ := h
  refine ⟨x ++ l1, l2, l3 ++ y, ?_⟩
  simp

/-- C7: hierarchical shutdown ordering — for every hierarchy and every
parent-child pair in it, the child's afterStop hook runs strictly before the
parent's afterStop hook in the shutdown trace, at every level. -/
theorem child_afterStop_precedes_parent {t : ActorTree} {p c : String}
    (h : ParentChildIn t p c) :
    Precedes (StopEv.afterStopOf c) (StopEv.afterStopOf p) (stopTrace t) := by
  induction h with
  | @here p cs c0 hc =>
    obtain ⟨l, r, hsplit⟩ := stopTraceAll_split hc
    obtain ⟨l1, l2, hmem⟩ := List.append_of_mem (afterStop_mem_stopTrace c0)
    refine ⟨.beforeStopOf p :: (l ++ l1), l2 ++ r, [], ?_⟩
    show StopEv.beforeStopOf p :: (stopTraceAll cs ++ [StopEv.afterStopOf p]) = _
    rw [hsplit, hmem]
    simp
  | @there n cs t2 p c ht hpc ih =>
    obtain ⟨l, r, hsplit⟩ := stopTraceAll_split ht
    have h2 := precedes_within ih (StopEv.beforeStopOf n :: l)
      (r ++ [StopEv.afterStopOf n])
    have heq : stopTrace (.node n cs)
        = (StopEv.beforeStopOf n :: l) ++ (stopTrace t2 ++ (r ++ [StopEv.afterStopOf n])) := by
      show StopEv.beforeStopOf n :: (stopTraceAll cs ++ [StopEv.afterStopOf n]) = _
      rw [hsplit]
      simp
    rw [heq]
    exact h2

/-- Witness for C7: in the grandparent → parent → two children hierarchy of
the stage-close tests, child1's afterStop precedes parent's afterStop in the
shutdown trace. -/
theorem child_afterStop_precedes_parent_witness :
    Precedes (StopEv.afterStopOf "child1") (StopEv.afterStopOf "parent")
      (stopTrace (.node "grandparent"
        [.node "parent" [.node "child1" [], .node "child2" []]])) :=
  child_afterStop_precedes_parent
    (.there (List.mem_singleton.mpr rfl)
      (.here (List.mem_cons_self _ _)))

/-- C9: the Cancellable of a scheduled task has an idempotent cancel(): on a
task not yet cancelled the first call returns true, clears the present
timeout/interval timers and marks the task cancelled; every call on a
cancelled task returns false and changes nothing, so every call after the
first returns false and changes nothing. -/
theorem scheduled_task_cancel_spec (t : ScheduledTask)
    (h : t.cancelled = false) :
    (t.cancel.returned = true ∧
     t.cancel.cleared = t.timeoutId.toList ++ t.intervalId.toList ∧
     t.cancel.task
        = { timeoutId := none, intervalId := none, cancelled := true }) ∧
    (∀ t2 : ScheduledTask, t2.cancelled = true →
      t2.cancel = { returned := false, task := t2, cleared := [] }) ∧
    t.cancel.task.cancel
        = { returned := false, task := t.cancel.task, cleared := [] } := by
  have hc : t.cancel
      = { returned := true
          task := { timeoutId := none, intervalId := none, cancelled := true }
          cleared := t.timeoutId.toList ++ t.intervalId.toList } := by
    simp [ScheduledTask.cancel, h]
  have hdone : ∀ t2 : ScheduledTask, t2.cancelled = true →
      t2.cancel = { returned := false, task := t2, cleared := [] } := by
    intro t2 h2
    simp [ScheduledTask.cancel, h2]
  refine ⟨⟨?_, ?_, ?_⟩, hdone, ?_⟩
  · rw [hc]
  · rw [hc]
  · rw [hc]
  · exact hdone t.cancel.task (by rw [hc])

/-- Witness for C9: a live task with timer ids 7 and 9 cancels to true,
clearing both, and a second cancel returns false changing nothing. -/
theorem scheduled_task_cancel_spec_witness :
    ({ timeoutId := some 7, intervalId := some 9,
       cancelled := false } : ScheduledTask).cancel.returned = true ∧
    ({ timeoutId := some 7, intervalId := some 9,
       cancelled := false } : ScheduledTask).cancel.cleared = [7, 9] ∧
    ({ timeoutId := some 7, intervalId := some 9,
       cancelled := false } : ScheduledTask).cancel.task.cancel.returned
      = false ∧
    ({ timeoutId := some 7, intervalId := some 9,
       cancelled := false } : ScheduledTask).cancel.task.cancel.task
      = ({ timeoutId := some 7, intervalId := some 9,
           cancelled := false } : ScheduledTask).cancel.task := by
  have h := scheduled_task_cancel_spec
    { timeoutId := some 7, intervalId := some 9, cancelled := false } rfl
  refine ⟨h.1.1, ?_, ?_, ?_⟩
  · rw [h.1.2.1]
    rfl
  · rw [h.2.2]
  · rw [h.2.2]

end DomoActors
